import Mathlib

/-!
Shallow embedding of the rotation scheduling and assignment engine of the
vibe-rotas service (scheduler, assignment ledger, rotation cursor, skip
engine, delivery retry wrapper), together with theorems settling the
frozen claims about its specification.

Conventions of the embedding:
* Calendar days are `Nat` (the source compares `assignedDate` against the
  start/end of one day; two dates in the same day are identified).
* A JS `Date` instant is an `Instant`: a calendar day plus the minute
  past UTC midnight within it, ordered lexicographically.
* The rrule engine behind `RRule.fromString`/`rule.after` is the external
  `rrule` npm package, and the timezone database behind
  `Intl.DateTimeFormat` lives in the JS runtime; both are parameters
  (`RRuleEngine`, `TzDatabase`) of the functions of the repository that
  call them.
* The Mongo collection of `RotaAssignment` documents is a `List Assignment`
  kept in creation (`createdAt`) order; the source's queries sort on
  `createdAt` ascending, which a filter over that list preserves.
* Asynchronous fallible calls (Slack delivery) are modelled by explicit
  outcome parameters: `Except String Nat` for one attempt (error message or
  message timestamp), `Option Nat` for the overall result of a retried send.
* JavaScript `undefined` from out-of-range indexing is modelled by
  `Option`/`List.get?`; thrown exceptions by `Option`/`Except` results.
-/

/-- Embedded `RotaAssignment` document (src/src/models/RotaAssignment.js).
`createdAt` is the mongoose timestamp, in hours for the retry-sweep cutoff
arithmetic. -/
structure Assignment where
  id : Nat
  rotaId : Nat
  workspaceId : String
  userId : String
  assignedDate : Nat
  channelId : String
  notified : Bool
  messageTs : Option Nat
  skipped : Bool
  skippedBy : Option String
  skippedAt : Option Nat
  replacedByAssignmentId : Option Nat
  createdAt : Nat
deriving Repr, DecidableEq

/-- Embedded `schedule` subdocument of a `Rota` (src/src/models/Rota.js).
The recurrence string is kept opaque as a `Nat` key; `timezone`,
`notificationHour` and `notificationMinute` are `Option` because
`shouldExecuteToday` guards them (`|| 'UTC'`, `!== undefined`) before
applying defaults. -/
structure Schedule where
  rrule : Nat
  timezone : Option String
  notificationHour : Option Nat
  notificationMinute : Option Nat
deriving Repr, DecidableEq

/-- Embedded `Rota` document (src/src/models/Rota.js): the fields the core
reads. `customMessage` is the list of rich-text elements of the optional
custom message (`null` becomes `none`). -/
structure Rota where
  id : Nat
  workspaceId : String
  name : String
  channelId : String
  members : List String
  schedule : Schedule
  customMessage : Option (List String)
  currentIndex : Nat
  isActive : Bool
deriving Repr, DecidableEq

/-- Embeds `createAssignment` (src/src/services/assignmentService.js, lines 8-26):
builds a fresh record with `notified: false`; skip fields take their schema
defaults. -/
def createAssignment (freshId : Nat) (rotaId : Nat) (workspaceId : String)
    (userId : String) (channelId : String) (assignedDate : Nat)
    (now : Nat) : Assignment :=
  { id := freshId
    rotaId := rotaId
    workspaceId := workspaceId
    userId := userId
    assignedDate := assignedDate
    channelId := channelId
    notified := false
    messageTs := none
    skipped := false
    skippedBy := none
    skippedAt := none
    replacedByAssignmentId := none
    createdAt := now }

/-- Embeds `markAsNotified` (assignmentService.js, lines 31-49) applied to one
document: set `notified` and record the message timestamp. -/
def markAsNotified (assignmentId : Nat) (messageTs : Nat)
    (a : Assignment) : Assignment :=
  if a.id = assignmentId then
    { a with notified := true, messageTs := some messageTs }
  else a

/-- Embeds `assignmentExistsForToday` (assignmentService.js, lines 97-113): does
any record for this rota fall inside the day of `date`? -/
def assignmentExistsForToday (ledger : List Assignment) (rotaId : Nat)
    (date : Nat) : Bool :=
  ledger.any (fun a => a.rotaId == rotaId && a.assignedDate == date)

/-- Embeds `getAssignmentsForDate` (src/unnamed/part_002, lines 8-22): all of the
rota's records inside the day, oldest first (the ledger list is kept in
`createdAt` order, which `filter` preserves). -/
def getAssignmentsForDate (ledger : List Assignment) (rotaId : Nat)
    (date : Nat) : List Assignment :=
  ledger.filter (fun a => a.rotaId == rotaId && a.assignedDate == date)

/-- Embeds `getUnnotifiedAssignments` (assignmentService.js, lines 81-92): pending
records no older than 24 hours, oldest first. `nowHours` is the current
time in hours; the cutoff is `nowHours - 24`. The retry sweep calls the
function with no argument, so the `workspaceId` filter of the source is
`undefined` and dropped from the query; the embedding has no workspace
parameter accordingly. -/
def getUnnotifiedAssignments (ledger : List Assignment) (nowHours : Nat) :
    List Assignment :=
  ledger.filter (fun a => !a.notified && nowHours - 24 ≤ a.createdAt)

/-- One block of the Slack message built by `sendRotaNotification`
(assignmentService.js, lines 161-244), keeping the structure the claims
talk about: the header, the optional custom-message section, and the
optional skip-button actions block. -/
inductive Block where
  | header (rotaName userId : String)
  | divider
  | custom (rendered : List String)
  | skipAction (assignmentId : Nat)
deriving Repr, DecidableEq

/-- Is a block the skip-button actions block? -/
def Block.isSkipAction : Block → Bool
  | .skipAction _ => true
  | _ => false

/-- The block list assembled by `sendRotaNotification` (assignmentService.js,
lines 165-216): always the header; then the rendered custom message behind
a divider when it has elements; then the skip button only when an
`assignmentId` was passed (JS truthiness of a non-null id) and
`memberCount > 1`. -/
def sendRotaNotificationBlocks (userId rotaName : String)
    (customMessage : Option (List String)) (assignmentId : Option Nat)
    (memberCount : Nat) : List Block :=
  [Block.header rotaName userId]
    ++ (match customMessage with
        | some els => if els.length > 0 then [Block.divider, Block.custom els] else []
        | none => [])
    ++ (match assignmentId with
        | some aid => if memberCount > 1 then [Block.skipAction aid] else []
        | none => [])

deriving instance DecidableEq for Except

/-- Result of the retry loop of `sendNotificationWithRetry`
(assignmentService.js, lines 249-274): the outcome (message timestamp or
the final thrown error message), the backoff delays induced in
milliseconds, and how many delivery attempts were made. -/
structure RetryOutcome where
  result : Except String Nat
  delays : List Nat
  attemptsMade : Nat
deriving Repr, DecidableEq

/-- The `for (let attempt = 1; attempt <= maxRetries; attempt++)` loop of
`sendNotificationWithRetry`: `remaining` is `maxRetries - attempt + 1`,
the structural fuel. On failure of a non-final attempt it sleeps
`2 ^ attempt * 1000` ms; after the final failure it throws a message
carrying the last underlying error. -/
def retryLoop (deliver : Nat → Except String Nat) (maxRetries : Nat) :
    Nat → Nat → String → RetryOutcome
  | 0, _, lastErr =>
    { result := Except.error
        ("Failed to send notification after " ++ toString maxRetries
          ++ " attempts: " ++ lastErr)
      delays := []
      attemptsMade := 0 }
  | remaining + 1, attempt, _ =>
    match deliver attempt with
    | Except.ok ts => { result := Except.ok ts, delays := [], attemptsMade := 1 }
    | Except.error e =>
      let rest := retryLoop deliver maxRetries remaining (attempt + 1) e
      { result := rest.result
        delays :=
          if attempt < maxRetries then (2 ^ attempt * 1000) :: rest.delays
          else rest.delays
        attemptsMade := rest.attemptsMade + 1 }

/-- Embeds `sendNotificationWithRetry` (assignmentService.js, lines 249-274).
The outbound Slack call is abstracted as `deliver : attempt → outcome`;
the trailing defaulted parameters mirror the source signature
`(…, assignmentId = null, memberCount = 1, maxRetries = 3)`, and the
blocks actually posted on each attempt are returned alongside. -/
def sendNotificationWithRetry (deliver : Nat → Except String Nat)
    (userId rotaName : String) (customMessage : Option (List String))
    (assignmentId : Option Nat := none) (memberCount : Nat := 1)
    (maxRetries : Nat := 3) : RetryOutcome × List Block :=
  (retryLoop deliver maxRetries maxRetries 1 "",
   sendRotaNotificationBlocks userId rotaName customMessage assignmentId memberCount)

/-- Embeds `getNextAssignment` (src/src/controllers/rotaController.js, lines
200-218), the scheduling path's next-member operation. Throws when the
member list is empty (`none`); otherwise reads `members[currentIndex]`
with **no** bounds wrap (an out-of-range cursor yields JS `undefined`,
here `Option.none` from `get?`) and persists the cursor
`(currentIndex + 1) % members.length` back onto the rota. -/
def getNextAssignment (rota : Rota) : Option (Option String × Rota) :=
  if rota.members.length = 0 then none
  else
    some (rota.members.get? rota.currentIndex,
      { rota with currentIndex := (rota.currentIndex + 1) % rota.members.length })

/-- The `while (attempts < members.length)` scan of
`getNextAvailablePerson` (src/unnamed/part_002, lines 122-136): from the
current index, step to `(currentIndex + 1) % members.length` and return
the first index whose member is not in `assignedUserIds`; `none` when the
attempt budget is exhausted. -/
def scanNextAvailable (members : List String) (assignedUserIds : List String) :
    Nat → Nat → Option Nat
  | _, 0 => none
  | currentIndex, attempts + 1 =>
    if assignedUserIds.contains
        (members.getD ((currentIndex + 1) % members.length) "") then
      scanNextAvailable members assignedUserIds
        ((currentIndex + 1) % members.length) attempts
    else some ((currentIndex + 1) % members.length)

/-- The used set of `getNextAvailablePerson` (src/unnamed/part_002, line
115): the member ids of **all** of today's records, with no filter on
skip state. -/
def assignedUserIds (ledger : List Assignment) (rotaId : Nat) (date : Nat) :
    List String :=
  (getAssignmentsForDate ledger rotaId date).map (fun a => a.userId)

/-- Embeds `getNextAvailablePerson` (src/unnamed/part_002, lines 111-152), the
shared skip-path next-member query: builds the used set from all of
today's records, scans circularly for at most `members.length` steps, and
falls back to `(currentIndex + 1) % members.length` unconditionally when
everyone has been used. Empty member list is `none` (the JS would produce
`undefined`). -/
def getNextAvailablePerson (rota : Rota) (ledger : List Assignment)
    (date : Nat) : Option (String × Nat) :=
  if rota.members.length = 0 then none
  else
    match scanNextAvailable rota.members (assignedUserIds ledger rota.id date)
        rota.currentIndex rota.members.length with
    | some idx => some (rota.members.getD idx "", idx)
    | none =>
      let fallbackIndex := (rota.currentIndex + 1) % rota.members.length
      some (rota.members.getD fallbackIndex "", fallbackIndex)

/-- Embeds `getConsecutiveSkipCount` (src/unnamed/part_002, lines 27-54): the
length of the contiguous run of `skipped` records at the tail of today's
chain, counted backwards from the most recent record. -/
def getConsecutiveSkipCount (ledger : List Assignment) (rotaId : Nat)
    (date : Nat) : Nat :=
  ((getAssignmentsForDate ledger rotaId date).reverse.takeWhile
    (fun a => a.skipped)).length

/-- Outcome of `canSkipAssignment` (src/unnamed/part_002, lines 60-105):
either the skip is allowed or one of its three rejection reasons fired. -/
inductive SkipCheck where
  | allowed
  | rotaNotFound
  | singleMember
  | limitReached (consecutiveSkips maxSkips : Nat)
deriving Repr, DecidableEq

/-- Embeds `Rota.findById` as a lookup over the rota store list. -/
def findRota (rotas : List Rota) (rotaId : Nat) : Option Rota :=
  rotas.find? (fun r => r.id == rotaId)

/-- Embeds `RotaAssignment.findById` as a lookup over the ledger list. -/
def findAssignment (ledger : List Assignment) (assignmentId : Nat) :
    Option Assignment :=
  ledger.find? (fun a => a.id == assignmentId)

/-- Embeds `canSkipAssignment` (src/unnamed/part_002, lines 60-105): rota must
exist, have strictly more than one member, and today's consecutive skip
count must be below `members.length - 1`. -/
def canSkipAssignment (rotas : List Rota) (ledger : List Assignment)
    (rotaId : Nat) (date : Nat) : SkipCheck :=
  match findRota rotas rotaId with
  | none => SkipCheck.rotaNotFound
  | some rota =>
    if rota.members.length ≤ 1 then SkipCheck.singleMember
    else
      let consecutiveSkips := getConsecutiveSkipCount ledger rotaId date
      let maxSkips := rota.members.length - 1
      if consecutiveSkips ≥ maxSkips then
        SkipCheck.limitReached consecutiveSkips maxSkips
      else SkipCheck.allowed

/-- Outcome of `validateSkipRequest` (src/src/controllers/eventController.js,
lines 75-122). -/
inductive SkipValidation where
  | assignmentNotFound
  | alreadySkipped
  | notAllowed (why : SkipCheck)
  | valid (assignment : Assignment)
deriving Repr, DecidableEq

/-- Embeds `validateSkipRequest` (eventController.js, lines 75-122): assignment
must resolve, must not already be skipped, and `canSkipAssignment` must
pass for its rota and assigned date. -/
def validateSkipRequest (rotas : List Rota) (ledger : List Assignment)
    (assignmentId : Nat) : SkipValidation :=
  match findAssignment ledger assignmentId with
  | none => SkipValidation.assignmentNotFound
  | some assignment =>
    if assignment.skipped then SkipValidation.alreadySkipped
    else
      match canSkipAssignment rotas ledger assignment.rotaId
          assignment.assignedDate with
      | SkipCheck.allowed => SkipValidation.valid assignment
      | why => SkipValidation.notAllowed why

/-- A JS `Date` instant: its calendar day and the minute past UTC
midnight within that day. -/
structure Instant where
  day : Nat
  minute : Nat
deriving Repr, DecidableEq

/-- Order of instants (the order of JS `Date` values restricted to these
fields). -/
def Instant.le (a b : Instant) : Prop :=
  a.day < b.day ∨ (a.day = b.day ∧ a.minute ≤ b.minute)

instance (a b : Instant) : Decidable (Instant.le a b) := by
  unfold Instant.le
  infer_instance

/-- The external rrule engine (the `rrule` npm package, which is not part
of this repository): given a parsed recurrence specification (opaque
`Nat` key) and a query instant, `rule.after(after, inc = true)` — the
first occurrence at-or-after the query instant, or `none` when the
specification string does not parse. -/
def RRuleEngine : Type := Nat → Instant → Option Instant

/-- Embeds `getNextOccurrence` (the rrule helper section of
src/src/utils/awayStatusHelper.js, lines 88-96): parse the stored rrule
string and query `rule.after(after, true)`; the caller in
`shouldExecuteToday` uses the default `after = new Date()`, the full
current instant. A parse error is caught and surfaces as `none`. -/
def getNextOccurrence (engine : RRuleEngine) (rruleString : Nat)
    (after : Instant) : Option Instant :=
  engine rruleString after

/-- The timezone database behind `Intl.DateTimeFormat` (it lives in the
JS runtime, not in this repository): an IANA timezone name resolves to
the projection of an instant to its wall-clock (hour, minute) in that
zone, or to `none` for an unknown name (the helpers' catch path). -/
def TzDatabase : Type := String → Option (Instant → Nat × Nat)

/-- The UTC fields of an instant: `date.getUTCHours()` and
`date.getUTCMinutes()`. -/
def utcParts (date : Instant) : Nat × Nat :=
  (date.minute / 60, date.minute % 60)

/-- Embeds `getCurrentHourInTimezone` (the timezone helper section of
src/src/utils/awayStatusHelper.js, lines 182-205): format the instant in
the timezone and read the hour part; on any error fall back to
`date.getUTCHours()`. -/
def getCurrentHourInTimezone (tzdb : TzDatabase) (date : Instant)
    (timezone : String) : Nat :=
  match tzdb timezone with
  | some formatter => (formatter date).1
  | none => (utcParts date).1

/-- Embeds `getCurrentMinuteInTimezone` (awayStatusHelper.js, lines
213-232): the minute part of the same projection, with the
`date.getUTCMinutes()` fallback. -/
def getCurrentMinuteInTimezone (tzdb : TzDatabase) (date : Instant)
    (timezone : String) : Nat :=
  match tzdb timezone with
  | some formatter => (formatter date).2
  | none => (utcParts date).2

/-- The `currentHour * 60 + currentMinute` value `shouldExecuteToday`
compares against the notification time. -/
def projectedMinutes (tzdb : TzDatabase) (timezone : String)
    (now : Instant) : Nat :=
  getCurrentHourInTimezone tzdb now timezone * 60 +
    getCurrentMinuteInTimezone tzdb now timezone

/-- Embeds `shouldExecuteToday` (src/src/services/schedulerService.js,
lines 24-101). Step 1: `getNextOccurrence(rota.schedule.rrule)` is queried
at the full current instant (its `after` parameter defaults to
`new Date()`); the returned occurrence, floored to its calendar day, must
equal today's day (`dateMatches`). Step 2: the current wall-clock time in
the rota's timezone (default `'UTC'`), as minutes since midnight, must
have reached the notification time, with defaults of hour 10 and minute 0
when unset. -/
def shouldExecuteToday (engine : RRuleEngine) (tzdb : TzDatabase)
    (rota : Rota) (now : Instant) : Bool :=
  match getNextOccurrence engine rota.schedule.rrule now with
  | none => false
  | some nextOccurrence =>
    if nextOccurrence.day ≠ now.day then false
    else
      let rotaTz := rota.schedule.timezone.getD "UTC"
      let currentHour := getCurrentHourInTimezone tzdb now rotaTz
      let currentMinute := getCurrentMinuteInTimezone tzdb now rotaTz
      let notificationHour := rota.schedule.notificationHour.getD 10
      let notificationMinute := rota.schedule.notificationMinute.getD 0
      let currentTimeInMinutes := currentHour * 60 + currentMinute
      let notificationTimeInMinutes :=
        notificationHour * 60 + notificationMinute
      decide (currentTimeInMinutes ≥ notificationTimeInMinutes)

/-- A normal return of `processRota` (schedulerService.js, lines 106-162):
the skipped no-op when today's record already exists, or success with the
assigned member and message timestamp. The source's catch block never
produces its `{ success: false, ... }` value: see `processRota`. -/
inductive ProcessResult where
  | alreadyAssigned
  | ok (userId : String) (messageTs : Nat)
deriving Repr, DecidableEq

/-- The error that actually escapes `processRota` on any per-rota
failure: its catch block (schedulerService.js, lines 153-161) reads
`rotaId`, a `const` declared inside the try block and out of scope in the
catch, so evaluating the log-call argument throws. -/
def rotaIdReferenceError : String := "ReferenceError: rotaId is not defined"

/-- Embeds `processRota` (schedulerService.js, lines 106-162). The
delivery outcome of `sendNotificationWithRetry` is abstracted as
`deliver` (`some ts` after at most 3 attempts, `none` when all attempts
failed and the wrapper threw). Source order: duplicate check, next member
(the cursor is saved inside `getNextAssignment`), record creation,
delivery, mark-as-notified. Any error thrown inside the try block (the
`No members in rota` throw of `getNextAssignment`, or the delivery
failure) reaches the catch block, whose own log call references the
try-scoped `rotaId` and throws a `ReferenceError` that escapes the
function — modelled as `Except.error` — while the database writes made
before the throw (the created record, the advanced cursor) stay
persisted, carried in the returned ledger and rota. -/
def processRota (rota : Rota) (ledger : List Assignment) (today : Nat)
    (freshId : Nat) (now : Nat) (deliver : Option Nat) :
    Except String ProcessResult × List Assignment × Rota :=
  if assignmentExistsForToday ledger rota.id today then
    (Except.ok ProcessResult.alreadyAssigned, ledger, rota)
  else
    match getNextAssignment rota with
    | none => (Except.error rotaIdReferenceError, ledger, rota)
    | some (userOpt, savedRota) =>
      let userId := userOpt.getD ""
      let assignment :=
        createAssignment freshId rota.id rota.workspaceId userId
          rota.channelId today now
      match deliver with
      | none =>
        (Except.error rotaIdReferenceError, ledger ++ [assignment],
         savedRota)
      | some messageTs =>
        (Except.ok (ProcessResult.ok userId messageTs),
         (ledger ++ [assignment]).map (markAsNotified freshId messageTs),
         savedRota)

/-- Aggregate counters of `processAllRotas` (schedulerService.js, lines
188-231). `failed` and `errors` exist in the source's results object but
are only fed from a `success: false` return of `processRota`, which the
catch bug makes unreachable. -/
structure CycleResults where
  total : Nat
  processed : Nat
  skipped : Nat
  failed : Nat
  errors : List (Nat × String)
deriving Repr, DecidableEq

/-- The `for (const rota of rotas)` loop of `processAllRotas`
(schedulerService.js, lines 197-223): sequential, each rota first gated
by `shouldExecuteToday`, then processed. A throw escaping `processRota`
propagates into `processAllRotas`'s catch, which rethrows (line 237), so
the cycle aborts with that error: no per-item entry is recorded, no
results object is returned, and the remaining rotas are not processed.
Fresh record ids count up from `freshId`. -/
def processRotasLoop (engine : RRuleEngine) (tzdb : TzDatabase)
    (now : Instant) (nowHours : Nat) (deliver : Rota → Option Nat) :
    List Rota → List Assignment → Nat → CycleResults →
    Except String CycleResults × List Assignment
  | [], ledger, _, acc => (Except.ok acc, ledger)
  | rota :: rest, ledger, freshId, acc =>
    if ¬ shouldExecuteToday engine tzdb rota now then
      processRotasLoop engine tzdb now nowHours deliver rest ledger freshId
        { acc with skipped := acc.skipped + 1 }
    else
      let p := processRota rota ledger now.day freshId nowHours
        (deliver rota)
      match p.1 with
      | Except.error e => (Except.error e, p.2.1)
      | Except.ok ProcessResult.alreadyAssigned =>
        processRotasLoop engine tzdb now nowHours deliver rest p.2.1
          (freshId + 1) { acc with skipped := acc.skipped + 1 }
      | Except.ok (ProcessResult.ok _ _) =>
        processRotasLoop engine tzdb now nowHours deliver rest p.2.1
          (freshId + 1) { acc with processed := acc.processed + 1 }

/-- Embeds `processAllRotas` (schedulerService.js, lines 167-241) under
the single-flight guard already passed: run the loop over the active
rotas with zeroed counters and `total` fixed up front; `Except.error`
is the rethrown per-rota failure aborting the cycle. -/
def processAllRotas (engine : RRuleEngine) (tzdb : TzDatabase)
    (rotas : List Rota) (ledger : List Assignment) (now : Instant)
    (nowHours : Nat) (deliver : Rota → Option Nat) (freshId : Nat) :
    Except String CycleResults × List Assignment :=
  processRotasLoop engine tzdb now nowHours deliver rotas ledger freshId
    { total := rotas.length, processed := 0, skipped := 0, failed := 0,
      errors := [] }

/-- What a successful `performSkip` (eventController.js, lines 127-208)
leaves behind: the replacement record's id and member, the persisted
cursor, the updated ledger and rota, and the replacement notification
(its blocks and delivery outcome). -/
structure SkipOutcome where
  newAssignmentId : Nat
  newUserId : String
  newIndex : Nat
  ledger : List Assignment
  rota : Rota
  replacementBlocks : List Block
  replacementDelivery : RetryOutcome
deriving Repr, DecidableEq

/-- Embeds `performSkip` (eventController.js, lines 127-208). Source order: load
the rota (throw when missing), query `getNextAvailablePerson`, create the
replacement record, mark the original's skip fields, persist the advanced
cursor, best-effort edit of the original message (external, not modelled),
then send the replacement notification via `sendNotificationWithRetry`
with only five arguments — `assignmentId` and `memberCount` fall back to
their defaults `null` and `1` — and mark the replacement notified. A
delivery failure throws out of the operation (`none`), after the record,
skip marks and cursor were already persisted. -/
def performSkip (rotas : List Rota) (ledger : List Assignment)
    (assignment : Assignment) (skippedByUserId : String) (now : Nat)
    (freshId : Nat) (deliver : Nat → Except String Nat) :
    Option SkipOutcome :=
  match findRota rotas assignment.rotaId with
  | none => none
  | some rota =>
    match getNextAvailablePerson rota ledger assignment.assignedDate with
    | none => none
    | some (nextUserId, newIndex) =>
      let newAssignment :=
        createAssignment freshId assignment.rotaId assignment.workspaceId
          nextUserId assignment.channelId assignment.assignedDate now
      let markSkipped := fun (a : Assignment) =>
        if a.id = assignment.id then
          { a with skipped := true, skippedBy := some skippedByUserId,
                   skippedAt := some now,
                   replacedByAssignmentId := some freshId }
        else a
      let ledger1 := (ledger ++ [newAssignment]).map markSkipped
      let savedRota := { rota with currentIndex := newIndex }
      let sent :=
        sendNotificationWithRetry deliver nextUserId rota.name
          rota.customMessage
      match sent.1.result with
      | Except.error _ => none
      | Except.ok messageTs =>
        some
          { newAssignmentId := freshId
            newUserId := nextUserId
            newIndex := newIndex
            ledger := ledger1.map (markAsNotified freshId messageTs)
            rota := savedRota
            replacementBlocks := sent.2
            replacementDelivery := sent.1 }

/-- Per-record outcome of the retry sweep. -/
structure SweepItem where
  assignmentId : Nat
  outcome : RetryOutcome
  blocks : List Block
deriving Repr, DecidableEq

/-- The `for (const assignment of unnotified)` loop of
`retryFailedNotifications` (schedulerService.js, lines 263-291): per
pending record, look up its rota (missing rota is skipped with a warning)
and call `sendNotificationWithRetry(workspaceId, channelId, userId,
rota.name, rota.customMessage, 2)` — six positional arguments, so the
literal `2` binds to the `assignmentId` parameter and `memberCount` and
`maxRetries` keep their defaults `1` and `3`. Success marks the record
notified; failure is caught and the loop continues. -/
def sweepLoop (rotas : List Rota) (deliver : Nat → Nat → Except String Nat) :
    List Assignment → List Assignment → List SweepItem × List Assignment
  | [], ledger => ([], ledger)
  | assignment :: rest, ledger =>
    match findRota rotas assignment.rotaId with
    | none => sweepLoop rotas deliver rest ledger
    | some rota =>
      let sent :=
        sendNotificationWithRetry (deliver assignment.id) assignment.userId
          rota.name rota.customMessage (some 2)
      let ledger' :=
        match sent.1.result with
        | Except.ok messageTs =>
          ledger.map (markAsNotified assignment.id messageTs)
        | Except.error _ => ledger
      let r := sweepLoop rotas deliver rest ledger'
      (⟨assignment.id, sent.1, sent.2⟩ :: r.1, r.2)

/-- Embeds `retryFailedNotifications` (schedulerService.js, lines 246-297): fetch
the pending records of the last 24 hours via `getUnnotifiedAssignments`
and run the retry loop over them. `deliver` maps an assignment id and an
attempt number to that attempt's outcome. -/
def retryFailedNotifications (rotas : List Rota) (ledger : List Assignment)
    (nowHours : Nat) (deliver : Nat → Nat → Except String Nat) :
    List SweepItem × List Assignment :=
  sweepLoop rotas deliver (getUnnotifiedAssignments ledger nowHours) ledger

/-! Concrete fixtures (used to evaluate the theorems at concrete inputs). -/

/-- A three-member rota. -/
def exRota : Rota :=
  { id := 1, workspaceId := "W", name := "Support", channelId := "C",
    members := ["U1", "U2", "U3"],
    schedule :=
      { rrule := 0, timezone := none, notificationHour := some 10,
        notificationMinute := some 0 },
    customMessage := none, currentIndex := 0, isActive := true }

/-- A two-member rota. -/
def exRotaTwo : Rota :=
  { exRota with id := 2, members := ["A", "B"] }

/-- A single-member rota. -/
def exRotaOne : Rota :=
  { exRota with id := 3, members := ["Solo"] }

/-- The three-member rota with notification time 00:00, so that only the
date-match gates its eligibility. -/
def exRotaMidnight : Rota :=
  { exRota with
      schedule :=
        { rrule := 0, timezone := none, notificationHour := some 0,
          notificationMinute := some 0 } }

/-- A record of `exRota`'s ledger with the given id, member, skip state,
day and creation time. -/
def exRecord (i : Nat) (u : String) (sk : Bool) (d ca : Nat) : Assignment :=
  { id := i, rotaId := 1, workspaceId := "W", userId := u, assignedDate := d,
    channelId := "C", notified := false, messageTs := none, skipped := sk,
    skippedBy := none, skippedAt := none, replacedByAssignmentId := none,
    createdAt := ca }

/-- A timezone database that knows only UTC (the projection used by the
fixtures; every rota above stores no timezone and so falls back to
`'UTC'`). -/
def utcOnly : TzDatabase :=
  fun timezone => if timezone = "UTC" then some utcParts else none

/-- The engine of a daily rule whose occurrences are timestamped 23:00
(minute 1380) — e.g. a DAILY rrule whose `dtstart` carries that
time-of-day: the first occurrence at-or-after a query instant is the same
day's 23:00 when the query is not past it, otherwise the next day's. -/
def dailyAt2300 : RRuleEngine := fun _ q =>
  if q.minute ≤ 1380 then some ⟨q.day, 1380⟩ else some ⟨q.day + 1, 1380⟩

/-- The engine of a rule matching every instant (each query instant is
itself an occurrence — the inclusive `after` returns it). -/
def occursAlways : RRuleEngine := fun _ q => some q

/-! Theorems for the claims. -/

/-- Sanity of the counterexample engine: `dailyAt2300` really behaves as
`rule.after(q, true)` for the occurrence set of minute-1380 instants —
it returns an occurrence of the rule at-or-after the query instant, and
the first such one. -/
theorem dailyAt2300_is_first_after (rrule : Nat) (q : Instant) :
    ∃ r, dailyAt2300 rrule q = some r ∧ r.minute = 1380 ∧ Instant.le q r ∧
      ∀ x : Instant, x.minute = 1380 → Instant.le q x → Instant.le r x := by
  unfold dailyAt2300
  by_cases hq : q.minute ≤ 1380
  · refine ⟨⟨q.day, 1380⟩, by rw [if_pos hq], rfl, Or.inr ⟨rfl, hq⟩, ?_⟩
    intro x hx hqx
    rcases hqx with h | ⟨hd, hm⟩
    · exact Or.inl h
    · refine Or.inr ⟨hd, ?_⟩
      show (1380 : Nat) ≤ x.minute
      omega
  · refine ⟨⟨q.day + 1, 1380⟩, by rw [if_neg hq], rfl,
      Or.inl (Nat.lt_succ_self _), ?_⟩
    intro x hx hqx
    rcases hqx with h | ⟨hd, hm⟩
    · rcases Nat.lt_or_ge (q.day + 1) x.day with h' | h'
      · exact Or.inl h'
      · refine Or.inr ⟨?_, ?_⟩
        · show q.day + 1 = x.day
          omega
        · show (1380 : Nat) ≤ x.minute
          omega
    · exact absurd (hx ▸ hm) hq

/-- C2 counterexample: `shouldExecuteToday` is not monotone within a day.
With the daily rule timestamped 23:00 and a rota notifying at 00:00 in
UTC, the pass at minute 600 of day 5 sees the occurrence ⟨5, 23:00⟩ —
same calendar day, time threshold passed — and returns true, while the
pass at minute 1400 of the same day sees the next occurrence ⟨6, 23:00⟩,
fails the date match, and returns false: true at minute 600, false at
the later minute 1400. The engine is a faithful `rule.after(now, true)`
(see `dailyAt2300_is_first_after`); the flip happens because
`getNextOccurrence` is queried with the full current instant. -/
theorem shouldExecuteToday_not_monotone_counterexample :
    shouldExecuteToday dailyAt2300 utcOnly exRotaMidnight ⟨5, 600⟩ = true ∧
    shouldExecuteToday dailyAt2300 utcOnly exRotaMidnight ⟨5, 1400⟩ = false ∧
    (600 : Nat) ≤ 1400 ∧
    dailyAt2300 exRotaMidnight.schedule.rrule ⟨5, 600⟩ = some ⟨5, 1380⟩ ∧
    dailyAt2300 exRotaMidnight.schedule.rrule ⟨5, 1400⟩ = some ⟨6, 1380⟩ := by
  decide

/-- C2 amended: `shouldExecuteToday` is the conjunction of the date match
(the engine's occurrence at the current instant falls on today) and the
time gate (projected wall-clock minutes have reached the notification
time). Between two instants of the same day at which the date match does
not flip and whose projected wall-clock time does not go backwards, a
true result persists; and at any instant whose occurrence is missing or
falls on another day the result is false. Unconditional within-day
monotonicity fails because the evaluator is queried with the full
current instant (see the counterexample). -/
theorem shouldExecuteToday_within_day
    (engine : RRuleEngine) (tzdb : TzDatabase) (rota : Rota)
    (day M M' : Nat) (_hMM : M ≤ M')
    (hstable : (engine rota.schedule.rrule ⟨day, M⟩).map Instant.day =
        some day →
      (engine rota.schedule.rrule ⟨day, M'⟩).map Instant.day = some day)
    (horder : projectedMinutes tzdb (rota.schedule.timezone.getD "UTC")
        ⟨day, M⟩ ≤
      projectedMinutes tzdb (rota.schedule.timezone.getD "UTC")
        ⟨day, M'⟩) :
    (shouldExecuteToday engine tzdb rota ⟨day, M⟩ = true →
      shouldExecuteToday engine tzdb rota ⟨day, M'⟩ = true) ∧
    (∀ mm, (engine rota.schedule.rrule ⟨day, mm⟩).map Instant.day ≠
        some day →
      shouldExecuteToday engine tzdb rota ⟨day, mm⟩ = false) := by
  constructor
  · intro h
    unfold shouldExecuteToday getNextOccurrence at h ⊢
    cases hx : engine rota.schedule.rrule ⟨day, M⟩ with
    | none => simp [hx] at h
    | some occ =>
      by_cases hd : occ.day = day
      · have hmap : (engine rota.schedule.rrule ⟨day, M'⟩).map Instant.day =
            some day := hstable (by rw [hx]; simp [hd])
        cases hx' : engine rota.schedule.rrule ⟨day, M'⟩ with
        | none => rw [hx'] at hmap; simp at hmap
        | some occ' =>
          have hd' : occ'.day = day := by
            rw [hx'] at hmap
            simpa using hmap
          unfold projectedMinutes at horder
          simp only [hx, hd, ne_eq, not_true_eq_false, if_false, ge_iff_le,
            decide_eq_true_eq] at h
          simp only [hx', hd', ne_eq, not_true_eq_false, if_false,
            ge_iff_le, decide_eq_true_eq]
          omega
      · simp [hx, hd] at h
  · intro mm hmm
    unfold shouldExecuteToday getNextOccurrence
    cases hx : engine rota.schedule.rrule ⟨day, mm⟩ with
    | none => rfl
    | some occ =>
      have hd : occ.day ≠ day := by
        intro he
        exact hmm (by rw [hx]; simp [he])
      simp [hd]

/-- Witness for C2's amended statement: with the 23:00-occurrence engine
and the UTC projection, between minutes 600 and 700 of day 5 the date
match is stable and the projection monotone, and eligibility at minute
600 persists to minute 700. -/
theorem shouldExecuteToday_within_day_witness :
    shouldExecuteToday dailyAt2300 utcOnly exRotaMidnight ⟨5, 700⟩ = true :=
  (shouldExecuteToday_within_day dailyAt2300 utcOnly exRotaMidnight 5 600 700
    (by decide) (by decide) (by decide)).1 (by decide)

/-- C6: with the default attempt budget of 3, the retry wrapper returns
the handle of the first successful attempt (immediately when attempt 1
succeeds); a delivery that fails twice and succeeds on the 3rd attempt
yields the success handle after exactly the two induced backoff delays of
2s and 4s; and when all 3 attempts fail it raises a failure carrying the
last underlying error message. -/
theorem sendNotificationWithRetry_policy
    (u r : String) (cm : Option (List String))
    (f g h : Nat → Except String Nat) (ts ts1 : Nat) (e1 e2 e3 : String)
    (hf1 : f 1 = Except.error e1) (hf2 : f 2 = Except.error e2)
    (hf3 : f 3 = Except.ok ts)
    (hg1 : g 1 = Except.error e1) (hg2 : g 2 = Except.error e2)
    (hg3 : g 3 = Except.error e3)
    (hh1 : h 1 = Except.ok ts1) :
    (sendNotificationWithRetry f u r cm).1 =
      { result := Except.ok ts, delays := [2000, 4000], attemptsMade := 3 } ∧
    (sendNotificationWithRetry h u r cm).1 =
      { result := Except.ok ts1, delays := [], attemptsMade := 1 } ∧
    (sendNotificationWithRetry g u r cm).1.result =
      Except.error ("Failed to send notification after 3 attempts: " ++ e3) := by
  refine ⟨?_, ?_, ?_⟩ <;>
    simp [sendNotificationWithRetry, show (3 : Nat) = 2 + 1 from rfl,
      retryLoop, hf1, hf2, hf3, hg1, hg2, hg3, hh1]
  rfl

/-- Witness for C6 at concrete delivery functions. -/
theorem sendNotificationWithRetry_policy_witness :
    (sendNotificationWithRetry
        (fun n => if n < 3 then Except.error ("err" ++ toString n) else Except.ok 77)
        "U1" "Support" none).1 =
      { result := Except.ok 77, delays := [2000, 4000], attemptsMade := 3 } ∧
    (sendNotificationWithRetry (fun _ => Except.ok 55) "U1" "Support" none).1 =
      { result := Except.ok 55, delays := [], attemptsMade := 1 } ∧
    (sendNotificationWithRetry
        (fun n => Except.error ("err" ++ toString n)) "U1" "Support" none).1.result =
      Except.error ("Failed to send notification after 3 attempts: " ++ "err3") :=
  sendNotificationWithRetry_policy "U1" "Support" none
    (fun n => if n < 3 then Except.error ("err" ++ toString n) else Except.ok 77)
    (fun n => Except.error ("err" ++ toString n))
    (fun _ => Except.ok 55)
    77 55 "err1" "err2" "err3"
    (by decide) (by decide) (by decide)
    (by decide) (by decide) (by decide)
    (by decide)

/-- Whether the assembled notification blocks carry the skip button:
exactly when an assignment id was passed and the member count exceeds 1. -/
theorem sendRotaNotificationBlocks_skipAction
    (u r : String) (cm : Option (List String)) (aid : Option Nat) (mc : Nat) :
    (sendRotaNotificationBlocks u r cm aid mc).any Block.isSkipAction =
      (aid.isSome && decide (mc > 1)) := by
  rcases aid with _ | a <;> rcases cm with _ | els <;>
    simp only [sendRotaNotificationBlocks, List.any_append, List.any_cons,
      List.any_nil, Block.isSkipAction, Option.isSome_none, Option.isSome_some,
      Bool.false_and, Bool.true_and, Bool.or_false, Bool.false_or] <;>
    split_ifs <;>
    simp_all [Block.isSkipAction]

/-- C10: a successful skip sends the replacement notification without an
assignment id and member count (defaults `null` and `1`), the notification
content carries a skip action only when an assignment id is provided and
the member count exceeds 1, and therefore the replacement message produced
by a skip never carries a skip action. -/
theorem skip_replacement_never_has_skip_action
    (rotas : List Rota) (ledger : List Assignment) (assignment : Assignment)
    (skippedBy : String) (now fid : Nat) (deliver : Nat → Except String Nat)
    (o : SkipOutcome)
    (hskip : performSkip rotas ledger assignment skippedBy now fid deliver =
      some o) :
    (∀ u r cm aid mc,
      ((sendRotaNotificationBlocks u r cm aid mc).any Block.isSkipAction = true
        ↔ aid.isSome = true ∧ mc > 1)) ∧
    o.replacementBlocks.any Block.isSkipAction = false := by
  constructor
  · intro u r cm aid mc
    rw [sendRotaNotificationBlocks_skipAction]
    simp
  · unfold performSkip at hskip
    split at hskip
    · exact absurd hskip (by simp)
    · split at hskip
      · exact absurd hskip (by simp)
      · simp only at hskip
        split at hskip
        · exact absurd hskip (by simp)
        · rw [Option.some.injEq] at hskip
          rw [← hskip]
          simp [sendNotificationWithRetry, sendRotaNotificationBlocks_skipAction]

/-- Witness for C10: a concrete successful skip of `exRota`'s day-5 record
whose replacement notification carries no skip action. -/
theorem skip_replacement_never_has_skip_action_witness :
    ∃ o, performSkip [exRota] [exRecord 1 "U1" false 5 10]
        (exRecord 1 "U1" false 5 10) "Boss" 50 7 (fun _ => Except.ok 9) =
        some o ∧
      o.replacementBlocks.any Block.isSkipAction = false := by
  have hs : (performSkip [exRota] [exRecord 1 "U1" false 5 10]
      (exRecord 1 "U1" false 5 10) "Boss" 50 7
      (fun _ => Except.ok 9)).isSome = true := by decide
  obtain ⟨o, ho⟩ := Option.isSome_iff_exists.mp hs
  exact ⟨o, ho,
    (skip_replacement_never_has_skip_action _ _ _ _ _ _ _ o ho).2⟩

/-- Evaluation of `canSkipAssignment` with the rota lookup resolved. -/
theorem canSkipAssignment_eq (rotas : List Rota) (ledger : List Assignment)
    (rotaId date : Nat) (rota : Rota)
    (hrota : findRota rotas rotaId = some rota) :
    canSkipAssignment rotas ledger rotaId date =
      (if rota.members.length ≤ 1 then SkipCheck.singleMember
       else if getConsecutiveSkipCount ledger rotaId date ≥
           rota.members.length - 1 then
         SkipCheck.limitReached (getConsecutiveSkipCount ledger rotaId date)
           (rota.members.length - 1)
       else SkipCheck.allowed) := by
  simp only [canSkipAssignment, hrota]

/-- Evaluation of `validateSkipRequest` with the assignment lookup
resolved for a not-yet-skipped target. -/
theorem validateSkipRequest_eq (rotas : List Rota) (ledger : List Assignment)
    (assignmentId : Nat) (assignment : Assignment)
    (hfind : findAssignment ledger assignmentId = some assignment)
    (hnot : assignment.skipped = false) :
    validateSkipRequest rotas ledger assignmentId =
      (match canSkipAssignment rotas ledger assignment.rotaId
          assignment.assignedDate with
       | SkipCheck.allowed => SkipValidation.valid assignment
       | why => SkipValidation.notAllowed why) := by
  simp only [validateSkipRequest, hfind, hnot, Bool.false_eq_true, if_false]

/-- C5: for a skip request on an existing, not-yet-skipped assignment
whose rota resolves, the request is rejected exactly when the rota has at
most one member or the consecutive skip count (the tail run of skipped
records of that day's chain) has reached `memberCount - 1`; a
single-member rotation is always rejected, and a 3-member rotation with
two consecutive tail skips that day is rejected. -/
theorem skip_limit_rejection
    (rotas : List Rota) (ledger : List Assignment) (assignmentId : Nat)
    (assignment : Assignment) (rota : Rota)
    (hfind : findAssignment ledger assignmentId = some assignment)
    (hnot : assignment.skipped = false)
    (hrota : findRota rotas assignment.rotaId = some rota) :
    ((∃ why, validateSkipRequest rotas ledger assignmentId =
        SkipValidation.notAllowed why) ↔
      (rota.members.length ≤ 1 ∨
        getConsecutiveSkipCount ledger assignment.rotaId
            assignment.assignedDate ≥ rota.members.length - 1)) ∧
    (rota.members.length ≤ 1 →
      validateSkipRequest rotas ledger assignmentId =
        SkipValidation.notAllowed SkipCheck.singleMember) ∧
    (rota.members.length = 3 →
      getConsecutiveSkipCount ledger assignment.rotaId
          assignment.assignedDate = 2 →
      validateSkipRequest rotas ledger assignmentId =
        SkipValidation.notAllowed (SkipCheck.limitReached 2 2)) := by
  rw [validateSkipRequest_eq rotas ledger assignmentId assignment hfind hnot,
    canSkipAssignment_eq rotas ledger assignment.rotaId
      assignment.assignedDate rota hrota]
  by_cases h1 : rota.members.length ≤ 1
  · refine ⟨by simp [h1], by simp [h1], ?_⟩
    intro h3
    omega
  · by_cases h2 : getConsecutiveSkipCount ledger assignment.rotaId
        assignment.assignedDate ≥ rota.members.length - 1
    · refine ⟨?_, ?_, ?_⟩
      · simp [h1, h2]
      · intro hc; exact absurd hc h1
      · intro h3 hc
        simp [h1, h2, h3, hc]
    · refine ⟨?_, ?_, ?_⟩
      · simp [h1, h2]
      · intro hc; exact absurd hc h1
      · intro h3 hc
        rw [h3, hc] at h2
        exact absurd (by omega) h2

/-- Witness for C5: a 3-member rota whose day-5 chain ends in two skipped
records; the skip request on the surviving record 1 is rejected by the
limit. -/
theorem skip_limit_rejection_witness :
    validateSkipRequest [exRota]
      [exRecord 1 "U1" false 5 10, exRecord 2 "U2" true 5 11,
       exRecord 3 "U3" true 5 12] 1 =
      SkipValidation.notAllowed (SkipCheck.limitReached 2 2) :=
  (skip_limit_rejection [exRota]
      [exRecord 1 "U1" false 5 10, exRecord 2 "U2" true 5 11,
       exRecord 3 "U3" true 5 12] 1
      (exRecord 1 "U1" false 5 10) exRota
      (by decide) (by decide) (by decide)).2.2 (by decide) (by decide)

/-- A scan hit is always an index of the form `(x + 1) % members.length`,
hence in range, and the reported member is the one at that index. -/
theorem scanNextAvailable_some_lt (members used : List String)
    (hlen : members.length ≠ 0) :
    ∀ fuel cur j, scanNextAvailable members used cur fuel = some j →
      j < members.length := by
  intro fuel
  induction fuel with
  | zero =>
    intro cur j h
    exact absurd h (by simp [scanNextAvailable])
  | succ n ih =>
    intro cur j h
    rw [scanNextAvailable] at h
    split at h
    · exact ih _ _ h
    · rw [Option.some.injEq] at h
      rw [← h]
      exact Nat.mod_lt _ (Nat.pos_of_ne_zero hlen)

/-- Whatever `getNextAvailablePerson` returns names an in-range index and
the member stored at it (so an out-of-range stored cursor is tolerated by
the modulo wrap of the scan). -/
theorem getNextAvailablePerson_some (rota : Rota) (ledger : List Assignment)
    (date : Nat) (u : String) (j : Nat)
    (h : getNextAvailablePerson rota ledger date = some (u, j)) :
    j < rota.members.length ∧ u = rota.members.getD j "" := by
  unfold getNextAvailablePerson at h
  by_cases hlen : rota.members.length = 0
  · rw [if_pos hlen] at h
    cases h
  · rw [if_neg hlen] at h
    cases hscan : scanNextAvailable rota.members
        (assignedUserIds ledger rota.id date) rota.currentIndex
        rota.members.length with
    | some idx =>
      rw [hscan, Option.some.injEq, Prod.mk.injEq] at h
      obtain ⟨hu, hj⟩ := h
      subst hj
      exact ⟨scanNextAvailable_some_lt rota.members _ hlen _ _ _ hscan,
        hu.symm⟩
    | none =>
      rw [hscan, Option.some.injEq, Prod.mk.injEq] at h
      obtain ⟨hu, hj⟩ := h
      subst hj
      exact ⟨Nat.mod_lt _ (Nat.pos_of_ne_zero hlen), hu.symm⟩

/-- C3 counterexample: on the two-member rota (members `["A", "B"]`,
cursor 0) and a day with no records, the scheduling path's
`getNextAssignment` selects member "A" while `getNextAvailablePerson`
returns member "B" — the two next-member operations do not agree, so they
are not one shared implementation. -/
theorem shared_next_member_counterexample :
    getNextAssignment exRotaTwo =
      some (some "A", { exRotaTwo with currentIndex := 1 }) ∧
    getNextAvailablePerson exRotaTwo [] 0 = some ("B", 1) ∧
    (some "A" : Option String) ≠ some "B" := by decide

/-- C3 amended: the scheduling path (`getNextAssignment`) and the skip
path (`getNextAvailablePerson`) are two separate implementations. On a
day with no records for the rotation, the cursor persisted by the
scheduling path equals the `newCursor` returned by the skip path — both
are `(cursor + 1) % memberCount` — but the selected member ids differ in
general: the scheduling path assigns `members[cursor]` while the skip
path returns `members[(cursor + 1) % memberCount]`. -/
theorem scheduling_vs_next_available
    (rota : Rota) (ledger : List Assignment) (date : Nat)
    (hm : rota.members ≠ [])
    (hempty : getAssignmentsForDate ledger rota.id date = []) :
    getNextAssignment rota =
      some (rota.members.get? rota.currentIndex,
        { rota with
            currentIndex := (rota.currentIndex + 1) % rota.members.length }) ∧
    getNextAvailablePerson rota ledger date =
      some (rota.members.getD ((rota.currentIndex + 1) % rota.members.length) "",
        (rota.currentIndex + 1) % rota.members.length) := by
  have hlen : rota.members.length ≠ 0 := by
    intro h
    exact hm (List.length_eq_zero.mp h)
  constructor
  · unfold getNextAssignment
    rw [if_neg hlen]
  · have hused : assignedUserIds ledger rota.id date = [] := by
      unfold assignedUserIds
      rw [hempty]
      rfl
    unfold getNextAvailablePerson
    rw [if_neg hlen, hused]
    cases hn : rota.members.length with
    | zero => exact absurd hn hlen
    | succ m =>
      rw [scanNextAvailable]
      simp [hn]

/-- Witness for C3's amended statement at the two-member rota. -/
theorem scheduling_vs_next_available_witness :
    getNextAssignment exRotaTwo =
      some (exRotaTwo.members.get? exRotaTwo.currentIndex,
        { exRotaTwo with
            currentIndex :=
              (exRotaTwo.currentIndex + 1) % exRotaTwo.members.length }) ∧
    getNextAvailablePerson exRotaTwo [] 0 =
      some (exRotaTwo.members.getD
          ((exRotaTwo.currentIndex + 1) % exRotaTwo.members.length) "",
        (exRotaTwo.currentIndex + 1) % exRotaTwo.members.length) :=
  scheduling_vs_next_available exRotaTwo [] 0 (by decide) (by decide)

/-- C9 counterexample: with the stored cursor out of range (5 on a
two-member list), the scheduling path's `getNextAssignment` selects no
member at all (JS `undefined` from `members[5]`) instead of the
modulo-wrapped member `members[5 % 2] = "B"` — the member selection is
not tolerant of an out-of-range cursor. -/
theorem cursor_defensive_wrap_counterexample :
    getNextAssignment { exRotaTwo with currentIndex := 5 } =
      some (none, { exRotaTwo with currentIndex := 0 }) ∧
    (none : Option String) ≠
      some (exRotaTwo.members.getD (5 % exRotaTwo.members.length) "") := by
  decide

/-- C9 amended: every cursor-mutating core operation persists an in-range
cursor — the scheduling path stores `(cursor + 1) % memberCount`, the
skip paths store the index returned by `getNextAvailablePerson`, which is
in range and selects its member with a modulo wrap even for an
out-of-range stored cursor — but the scheduling path's member *selection*
(`members[cursor]`) does not modulo-wrap and yields no member when the
stored cursor is out of range. -/
theorem cursor_range_invariant
    (rota : Rota) (ledger : List Assignment) (date : Nat)
    (hm : rota.members ≠ []) :
    (∀ u rota2, getNextAssignment rota = some (u, rota2) →
      rota2.currentIndex < rota.members.length ∧
        rota2.members = rota.members) ∧
    (∀ u j, getNextAvailablePerson rota ledger date = some (u, j) →
      j < rota.members.length ∧ u = rota.members.getD j "") ∧
    (∀ rotas assignment skippedBy now fid deliver o,
      performSkip rotas ledger assignment skippedBy now fid deliver = some o →
      o.rota.currentIndex < o.rota.members.length) := by
  have hlen : rota.members.length ≠ 0 := by
    intro h
    exact hm (List.length_eq_zero.mp h)
  refine ⟨?_, ?_, ?_⟩
  · intro u rota2 h
    unfold getNextAssignment at h
    rw [if_neg hlen, Option.some.injEq, Prod.mk.injEq] at h
    rw [← h.2]
    exact ⟨Nat.mod_lt _ (Nat.pos_of_ne_zero hlen), rfl⟩
  · intro u j h
    exact getNextAvailablePerson_some rota ledger date u j h
  · intro rotas assignment skippedBy now fid deliver o hskip
    unfold performSkip at hskip
    split at hskip
    · exact absurd hskip (by simp)
    · rename_i rota0 hr0
      split at hskip
      · exact absurd hskip (by simp)
      · rename_i nextU newIdx hnext
        simp only at hskip
        split at hskip
        · exact absurd hskip (by simp)
        · rw [Option.some.injEq] at hskip
          rw [← hskip]
          have hb := getNextAvailablePerson_some rota0 ledger
            assignment.assignedDate nextU newIdx hnext
          simpa using hb.1

/-- Witness for C9 at a rota whose stored cursor 5 exceeds the two-member
list: the skip path still selects the wrapped member "A" at index 0. -/
theorem cursor_range_invariant_witness :
    (0 : Nat) < ({ exRotaTwo with currentIndex := 5 } : Rota).members.length ∧
    "A" = ({ exRotaTwo with currentIndex := 5 } : Rota).members.getD 0 "" :=
  (cursor_range_invariant { exRotaTwo with currentIndex := 5 } [] 0
    (by decide)).2.1 "A" 0 (by decide)

/-- Stepping the scan start by one wraps consistently:
`((cur + 1) % L + k) % L = (cur + 1 + k) % L`. -/
theorem scan_mod_step (L cur k : Nat) :
    ((cur + 1) % L + k) % L = (cur + 1 + k) % L :=
  Nat.mod_add_mod (cur + 1) L k

/-- Full characterisation of the circular scan: a hit at `j` means `j` is
the first candidate of the sequence `(cur + 1 + s) % L`, `s = 0, 1, ...`,
whose member is not in the used set, every earlier candidate being used;
a miss means every candidate within the attempt budget is used. -/
theorem scanNextAvailable_spec (members used : List String) :
    ∀ fuel cur,
      (∀ j, scanNextAvailable members used cur fuel = some j →
        ∃ t, t < fuel ∧ j = (cur + 1 + t) % members.length ∧
          used.contains (members.getD j "") = false ∧
          ∀ s, s < t → used.contains
            (members.getD ((cur + 1 + s) % members.length) "") = true) ∧
      (scanNextAvailable members used cur fuel = none →
        ∀ s, s < fuel → used.contains
          (members.getD ((cur + 1 + s) % members.length) "") = true) := by
  intro fuel
  induction fuel with
  | zero =>
    intro cur
    refine ⟨fun j h => absurd h (by simp [scanNextAvailable]),
      fun _ s hs => absurd hs (Nat.not_lt_zero s)⟩
  | succ n ih =>
    intro cur
    constructor
    · intro j h
      rw [scanNextAvailable] at h
      split at h
      · rename_i hcont
        obtain ⟨t, ht, hj, hnc, hall⟩ :=
          (ih ((cur + 1) % members.length)).1 j h
        refine ⟨t + 1, by omega, ?_, hnc, ?_⟩
        · rw [hj, show (cur + 1) % members.length + 1 + t =
            (cur + 1) % members.length + (1 + t) from by omega,
            scan_mod_step]
          congr 1
          omega
        · intro s hs
          cases s with
          | zero =>
            simpa using hcont
          | succ s' =>
            have := hall s' (by omega)
            rw [show (cur + 1) % members.length + 1 + s' =
              (cur + 1) % members.length + (1 + s') from by omega,
              scan_mod_step] at this
            rw [show cur + 1 + (s' + 1) = cur + 1 + (1 + s') from by omega]
            exact this
      · rename_i hcont
        rw [Option.some.injEq] at h
        refine ⟨0, Nat.succ_pos n, by rw [Nat.add_zero]; exact h.symm, ?_,
          fun s hs => absurd hs (Nat.not_lt_zero s)⟩
        rw [← h]
        exact Bool.not_eq_true _ ▸ eq_false_of_ne_true hcont
    · intro h s hs
      rw [scanNextAvailable] at h
      split at h
      · rename_i hcont
        cases s with
        | zero =>
          simpa using hcont
        | succ s' =>
          have := (ih ((cur + 1) % members.length)).2 h s' (by omega)
          rw [show (cur + 1) % members.length + 1 + s' =
            (cur + 1) % members.length + (1 + s') from by omega,
            scan_mod_step] at this
          rw [show cur + 1 + (s' + 1) = cur + 1 + (1 + s') from by omega]
          exact this
      · exact absurd h (by simp)

/-- The used set is blind to skip state: rewriting every record's
`skipped` flag leaves the member ids counted as used unchanged. -/
theorem assignedUserIds_skip_blind (ledger : List Assignment)
    (rotaId date : Nat) (b : Bool) :
    assignedUserIds (ledger.map (fun a => { a with skipped := b }))
        rotaId date =
      assignedUserIds ledger rotaId date := by
  unfold assignedUserIds getAssignmentsForDate
  induction ledger with
  | nil => rfl
  | cons a rest ih =>
    by_cases hp : (a.rotaId == rotaId && a.assignedDate == date) = true
    · simp only [List.map_cons, List.filter_cons, hp, if_true, List.map_cons]
      rw [ih]
    · simp only [List.map_cons, List.filter_cons, hp, if_false]
      exact ih

/-- C4: for a rotation with members and an in-range cursor,
`getNextAvailablePerson` returns a member and a new cursor such that the
new cursor is the index of the returned member; either the member is the
first candidate of the circular scan from `(cursor + 1) % memberCount`
that is not in the used set (all earlier candidates being used), or every
candidate within `memberCount` steps is used and the fallback
`(cursor + 1) % memberCount` is returned; and the used set counts
assigned members regardless of skip state. -/
theorem next_available_scan_correct
    (rota : Rota) (ledger : List Assignment) (date : Nat)
    (hm : rota.members ≠ []) (_hc : rota.currentIndex < rota.members.length) :
    ∃ u j, getNextAvailablePerson rota ledger date = some (u, j) ∧
      j < rota.members.length ∧ u = rota.members.getD j "" ∧
      ((∃ t, t < rota.members.length ∧
          j = (rota.currentIndex + 1 + t) % rota.members.length ∧
          (assignedUserIds ledger rota.id date).contains u = false ∧
          ∀ s, s < t → (assignedUserIds ledger rota.id date).contains
            (rota.members.getD
              ((rota.currentIndex + 1 + s) % rota.members.length) "") = true) ∨
        ((∀ s, s < rota.members.length →
            (assignedUserIds ledger rota.id date).contains
              (rota.members.getD
                ((rota.currentIndex + 1 + s) % rota.members.length) "") = true) ∧
          j = (rota.currentIndex + 1) % rota.members.length)) ∧
      (∀ b, assignedUserIds (ledger.map (fun a => { a with skipped := b }))
          rota.id date = assignedUserIds ledger rota.id date) := by
  have hlen : rota.members.length ≠ 0 := by
    intro h
    exact hm (List.length_eq_zero.mp h)
  cases hscan : scanNextAvailable rota.members
      (assignedUserIds ledger rota.id date) rota.currentIndex
      rota.members.length with
  | some idx =>
    obtain ⟨t, ht, hj, hnc, hall⟩ :=
      (scanNextAvailable_spec rota.members
        (assignedUserIds ledger rota.id date) rota.members.length
        rota.currentIndex).1 idx hscan
    refine ⟨rota.members.getD idx "", idx, ?_, ?_, rfl, ?_, ?_⟩
    · unfold getNextAvailablePerson
      rw [if_neg hlen, hscan]
    · exact scanNextAvailable_some_lt rota.members _ hlen _ _ _ hscan
    · exact Or.inl ⟨t, ht, hj, hnc, hall⟩
    · intro b
      exact assignedUserIds_skip_blind ledger rota.id date b
  | none =>
    have hall :=
      (scanNextAvailable_spec rota.members
        (assignedUserIds ledger rota.id date) rota.members.length
        rota.currentIndex).2 hscan
    refine ⟨rota.members.getD
        ((rota.currentIndex + 1) % rota.members.length) "",
      (rota.currentIndex + 1) % rota.members.length, ?_, ?_, rfl, ?_, ?_⟩
    · unfold getNextAvailablePerson
      rw [if_neg hlen, hscan]
    · exact Nat.mod_lt _ (Nat.pos_of_ne_zero hlen)
    · exact Or.inr ⟨hall, rfl⟩
    · intro b
      exact assignedUserIds_skip_blind ledger rota.id date b

/-- Witness for C4: three-member rota, cursor 0, member "U2" already
assigned today — the scan skips "U2"; the witness exhibits the returned
member and cursor with the scan evidence evaluated concretely. -/
theorem next_available_scan_correct_witness :
    ∃ u j, getNextAvailablePerson exRota [exRecord 1 "U2" false 5 10] 5 =
        some (u, j) ∧
      j < exRota.members.length ∧ u = exRota.members.getD j "" ∧
      ((∃ t, t < exRota.members.length ∧
          j = (exRota.currentIndex + 1 + t) % exRota.members.length ∧
          (assignedUserIds [exRecord 1 "U2" false 5 10] exRota.id 5).contains
            u = false ∧
          ∀ s, s < t →
            (assignedUserIds [exRecord 1 "U2" false 5 10] exRota.id 5).contains
              (exRota.members.getD
                ((exRota.currentIndex + 1 + s) % exRota.members.length) "") =
              true) ∨
        ((∀ s, s < exRota.members.length →
            (assignedUserIds [exRecord 1 "U2" false 5 10] exRota.id 5).contains
              (exRota.members.getD
                ((exRota.currentIndex + 1 + s) % exRota.members.length) "") =
              true) ∧
          j = (exRota.currentIndex + 1) % exRota.members.length)) ∧
      (∀ b, assignedUserIds
          ([exRecord 1 "U2" false 5 10].map (fun a => { a with skipped := b }))
          exRota.id 5 =
        assignedUserIds [exRecord 1 "U2" false 5 10] exRota.id 5) :=
  next_available_scan_correct exRota [exRecord 1 "U2" false 5 10] 5
    (by decide) (by decide)

/-- The rota saved by `getNextAssignment` keeps the rota's identity and
stores the advanced cursor. -/
theorem getNextAssignment_some (rota : Rota) (u : Option String)
    (rota2 : Rota) (h : getNextAssignment rota = some (u, rota2)) :
    rota2.id = rota.id ∧
      rota2.currentIndex = (rota.currentIndex + 1) % rota.members.length := by
  unfold getNextAssignment at h
  by_cases hl : rota.members.length = 0
  · rw [if_pos hl] at h
    cases h
  · rw [if_neg hl, Option.some.injEq, Prod.mk.injEq] at h
    rw [← h.2]
    exact ⟨rfl, rfl⟩

/-- After the success branch of `processRota` appended and marked today's
record, a record for (rota, today) exists. -/
theorem assignmentExistsForToday_after_mark (ledger : List Assignment)
    (rid today fid ts now : Nat) (ws u ch : String) :
    assignmentExistsForToday
      ((ledger ++ [createAssignment fid rid ws u ch today now]).map
        (markAsNotified fid ts))
      rid today = true := by
  unfold assignmentExistsForToday
  rw [List.any_eq_true]
  refine ⟨markAsNotified fid ts (createAssignment fid rid ws u ch today now),
    List.mem_map_of_mem _
      (List.mem_append_right _ (List.mem_singleton.mpr rfl)), ?_⟩
  simp [markAsNotified, createAssignment]

/-- C1: if an AssignmentRecord already exists for (rotation, today) the
cycle's per-rota step is the skipped no-op creating no record; and after
a successful step, re-running the step for the same rotation and day —
with any fresh id, time and delivery outcome — is that no-op, creating
zero new records. -/
theorem cycle_idempotent_per_day
    (rota : Rota) (ledger : List Assignment) (today freshId now : Nat)
    (deliver : Option Nat) :
    (assignmentExistsForToday ledger rota.id today = true →
      processRota rota ledger today freshId now deliver =
        (Except.ok ProcessResult.alreadyAssigned, ledger, rota)) ∧
    (∀ u ts ledger' rota',
      processRota rota ledger today freshId now deliver =
        (Except.ok (ProcessResult.ok u ts), ledger', rota') →
      ∀ freshId2 now2 deliver2,
        processRota rota' ledger' today freshId2 now2 deliver2 =
          (Except.ok ProcessResult.alreadyAssigned, ledger', rota')) := by
  constructor
  · intro hex
    unfold processRota
    rw [hex]
    rfl
  · intro u ts ledger' rota' h freshId2 now2 deliver2
    unfold processRota at h
    by_cases hex : assignmentExistsForToday ledger rota.id today
    · rw [hex] at h
      simp at h
    · rw [Bool.not_eq_true] at hex
      rw [hex] at h
      simp only [Bool.false_eq_true, if_false] at h
      cases hga : getNextAssignment rota with
      | none =>
        rw [hga] at h
        simp at h
      | some p =>
        rw [hga] at h
        obtain ⟨uopt, saved⟩ := p
        simp only at h
        cases deliver with
        | none =>
          simp at h
        | some mts =>
          simp only [Prod.mk.injEq, Except.ok.injEq,
            ProcessResult.ok.injEq] at h
          obtain ⟨⟨hu, hts⟩, hledger, hrota⟩ := h
          unfold processRota
          have hid : saved.id = rota.id :=
            (getNextAssignment_some rota uopt saved hga).1
          rw [← hrota, ← hledger, hid,
            assignmentExistsForToday_after_mark]
          rfl

/-- Witness for C1: a first run on an empty ledger succeeds and the
re-run of the same rotation on the resulting state is the idempotent
no-op. -/
theorem cycle_idempotent_per_day_witness :
    processRota { exRota with currentIndex := 1 }
      [markAsNotified 7 42 (createAssignment 7 1 "W" "U1" "C" 5 100)]
      5 8 101 (some 43) =
      (Except.ok ProcessResult.alreadyAssigned,
       [markAsNotified 7 42 (createAssignment 7 1 "W" "U1" "C" 5 100)],
       { exRota with currentIndex := 1 }) :=
  (cycle_idempotent_per_day exRota [] 5 7 100 (some 42)).2 "U1" 42
    [markAsNotified 7 42 (createAssignment 7 1 "W" "U1" "C" 5 100)]
    { exRota with currentIndex := 1 } (by decide) 8 101 (some 43)

/-- C8, evaluated at the failing input: the claim is right — the spec,
the catch block's own `{ success: false, rotaId, error }` return and
`processAllRotas`'s error aggregation all intend a caught per-item
failure — but the code is wrong: the catch (schedulerService.js, lines
153-161) reads the try-scoped `rotaId`, so it throws `ReferenceError:
rotaId is not defined`, which `processAllRotas` catches and rethrows
(line 237). Concretely: day 5, minute 600, delivery failing for every
rotation — processing the three-member rota creates its record (which
stays pending, not rolled back) and then aborts the whole cycle with the
ReferenceError; no per-item error entry is produced (no results object
at all) and the two-member rota that follows in the same cycle is never
processed (its day has no record afterwards). -/
theorem cycle_aborts_on_item_failure :
    (processRota exRota [] 5 7 100 none).1 =
      Except.error rotaIdReferenceError ∧
    (processRota exRota [] 5 7 100 none).2.1 =
      [createAssignment 7 1 "W" "U1" "C" 5 100] ∧
    (createAssignment 7 1 "W" "U1" "C" 5 100).notified = false ∧
    processAllRotas occursAlways utcOnly [exRota, exRotaTwo] [] ⟨5, 600⟩
        100 (fun _ => none) 7 =
      (Except.error rotaIdReferenceError,
       [createAssignment 7 1 "W" "U1" "C" 5 100]) ∧
    assignmentExistsForToday [createAssignment 7 1 "W" "U1" "C" 5 100]
      exRotaTwo.id 5 = false := by
  decide

/-- C7, evaluated at the failing input: with the clock at hour 100, a
pending record created at hour 75 (25 hours old) and one created at hour
99 (1 hour old), the sweep selects exactly the 1-hour-old record — the
24-hour window of the claim holds — but retries it with an attempt budget
of 3, not 2: the literal `2` of the source call is the sixth positional
argument and binds `assignmentId`, leaving `maxRetries` at its default 3,
so a delivery that keeps failing is attempted 3 times (with both backoff
delays) before the sweep gives up on the record. -/
theorem retry_sweep_window_and_budget :
    (getUnnotifiedAssignments
        [exRecord 1 "U1" false 5 75, exRecord 2 "U2" false 5 99] 100).map
      (fun a => a.id) = [2] ∧
    (retryFailedNotifications [exRota]
        [exRecord 1 "U1" false 5 75, exRecord 2 "U2" false 5 99] 100
        (fun _ _ => Except.error "down")).1 =
      [{ assignmentId := 2,
         outcome :=
           { result := Except.error
               "Failed to send notification after 3 attempts: down",
             delays := [2000, 4000], attemptsMade := 3 },
         blocks := [Block.header "Support" "U2"] }] := by
  decide
